import Mathlib

/-!
Verification development for the slide rendering engine in
`pkg/pipeline/wasm.go` (package `pipeline`, WASM pipeline).

Floating-point numbers (`float64`) are modelled by `ℚ`; Go `int` by `ℤ`.
Go's `int(x)` conversion truncates toward zero (`goTrunc`), and
`math.Mod` is `x - y * trunc(x/y)` (`goMod`).  Formatted style strings
(`fmt.Sprintf` results) are modelled structurally by the tuple of their
arguments after resolution, since no formatting decision feeds back into
the rendering logic.  The abstract SVG canvas (`svg.SVG`) is modelled by
an emitted list of `SVGCall` values, in emission order.
-/

attribute [local semireducible] Rat.mul Rat.add Rat.sub Rat.inv

namespace PlatDeck

/-! ## Go string primitives

Modelled from the Go standard library `strings` package (the engine only
ever splits on a single-character separator).  These are defined by
structural recursion on the character list so that every concrete
rendering computation reduces in the kernel. -/

/-- Split a character list at every occurrence of `sep`; like Go's
`strings.Split` (and Lean's `String.splitOn`), the empty input yields one
empty field and separators at the edges yield empty fields. -/
def splitChar (sep : Char) : List Char → List (List Char)
  | [] => [[]]
  | c :: rest =>
    match splitChar sep rest with
    | [] => [[]]
    | h :: t => if c = sep then [] :: h :: t else (c :: h) :: t

/-- Go `strings.Split(s, sep)` for a one-character separator. -/
def goSplit (s : String) (sep : Char) : List String :=
  (splitChar sep s.toList).map String.mk

/-- Split at every character satisfying `p`, keeping empty fields. -/
def splitPred (p : Char → Bool) : List Char → List (List Char)
  | [] => [[]]
  | c :: rest =>
    match splitPred p rest with
    | [] => [[]]
    | h :: t => if p c then [] :: h :: t else (c :: h) :: t

/-- Go `strings.HasPrefix`. -/
def goHasPre (s pre : String) : Bool :=
  pre.toList.isPrefixOf s.toList

/-- Go `strings.HasSuffix`. -/
def goHasSuf (s suf : String) : Bool :=
  suf.toList.reverse.isPrefixOf s.toList.reverse

/-! ## Constants (wasm.go lines 21-28) -/

def linespacing : ℚ := 14 / 10

def listspacing : ℚ := 2

def listwrap : ℚ := 95

def defaultColor : String := "rgb(127,127,127)"

/-! ## Go numeric primitives -/

/-- Go's `int(x)` float-to-int conversion: truncation toward zero. -/
def goTrunc (q : ℚ) : ℤ := if 0 ≤ q then ⌊q⌋ else ⌈q⌉

/-- Go's `math.Mod(x, y) = x - y * trunc(x/y)` (result has the sign of x). -/
def goMod (x y : ℚ) : ℚ := x - y * goTrunc (x / y)

/-! ## Geometry helpers (wasm.go lines 137-165) -/

def pct (p m : ℚ) : ℚ := (p / 100) * m

def dimen (w h xp yp sp : ℚ) : ℚ × ℚ × ℚ :=
  (pct xp w, pct (100 - yp) h, pct sp w)

def setop (v : ℚ) : ℚ :=
  if v < 0 then 0
  else if v > 0 then v / 100
  else 1

def whitespace (r : Char) : Bool :=
  r = ' ' || r = '\n' || r = '\t'

/-! ## Number parsing

Modelled from the Go standard library `strconv.ParseFloat`, restricted to
plain decimal literals (optional sign, decimal digits, at most one decimal
point, at least one digit); exponent, hex-float, infinity and NaN forms are
not modelled, they fail.  The renderer only feeds coordinate tokens to it. -/

def digit? (c : Char) : Option ℕ :=
  if c.isDigit then some (c.toNat - 48) else none

def parseDecCore : List Char → Bool → Bool → ℚ → ℚ → Option ℚ
  | [], _, seenDigit, acc, _ => if seenDigit then some acc else none
  | c :: rest, seenDot, seenDigit, acc, scale =>
    if c = '.' then
      if seenDot then none else parseDecCore rest true seenDigit acc (1 / 10)
    else
      match digit? c with
      | none => none
      | some d =>
        if seenDot then
          parseDecCore rest true true (acc + d * scale) (scale / 10)
        else
          parseDecCore rest false true (acc * 10 + d) scale

def parseFloat? (s : String) : Option ℚ :=
  match s.toList with
  | '-' :: rest => (parseDecCore rest false false 0 0).map (fun q => -q)
  | '+' :: rest => parseDecCore rest false false 0 0
  | cs => parseDecCore cs false false 0 0

/-! ## Color resolution (wasm.go lines 179-243) -/

/-- The Go `switch` over hue sectors in `hsv2rgb` (first matching case wins);
`none` is the `default` branch. -/
def hsvSector (sect c x : ℚ) : Option (ℚ × ℚ × ℚ) :=
  if 0 ≤ sect ∧ sect ≤ 1 then some (c, x, 0)
  else if 1 < sect ∧ sect ≤ 2 then some (x, c, 0)
  else if 2 < sect ∧ sect ≤ 3 then some (0, c, x)
  else if 3 < sect ∧ sect ≤ 4 then some (0, x, c)
  else if 4 < sect ∧ sect ≤ 5 then some (x, 0, c)
  else if 5 < sect ∧ sect ≤ 6 then some (c, 0, x)
  else none

def hsv2rgb (h s v : ℚ) : ℤ × ℤ × ℤ :=
  let s := s / 100
  let v := v / 100
  if s > 1 ∨ v > 1 then (0, 0, 0)
  else
    let h := goMod h 360
    let c := v * s
    let sect := h / 60
    let x := c * (1 - |goMod sect 2 - 1|)
    match hsvSector sect c x with
    | none => (0, 0, 0)
    | some (r, g, b) =>
      let m := v - c
      (goTrunc ((r + m) * 255), goTrunc ((g + m) * 255), goTrunc ((b + m) * 255))

/-- Function `colorNumbers`: strip the `hsv(`/`)` wrapper (4 leading, 1 trailing byte),
delete spaces and tabs, split on commas. -/
def colorNumbers (s : String) : List String :=
  let inner := String.mk ((s.toList.drop 4).dropLast)
  let cleaned := String.mk (inner.toList.filter (fun c => !(c = ' ' || c = '\t')))
  goSplit cleaned ','

/-- Function `h2r`: parse the three hsv components (0 on parse failure, as Go ignores
the `ParseFloat` error), convert, and print an rgb functional string. -/
def h2r (s : String) : String :=
  let (red, green, blue) : ℤ × ℤ × ℤ :=
    match colorNumbers s with
    | [a, b, c] =>
      hsv2rgb ((parseFloat? a).getD 0) ((parseFloat? b).getD 0) ((parseFloat? c).getD 0)
    | _ => (0, 0, 0)
  "rgb(" ++ toString red ++ "," ++ toString green ++ "," ++ toString blue ++ ")"

def svgcolor (color : String) : String :=
  if goHasPre color "hsv(" && goHasSuf color ")" && color.length > 5 then
    h2r color
  else color

/-- Function `strokeop`: the stroke style string, modelled by its resolved
`(stroke-width, stroke color, stroke-opacity)` arguments. -/
def strokeop (sw : ℚ) (color : String) (opacity : ℚ) : ℚ × String × ℚ :=
  (sw, svgcolor color, setop opacity)

/-- Function `fillop`: the fill style string, modelled by its resolved
`(fill color, fill-opacity)` arguments. -/
def fillop (color : String) (opacity : ℚ) : String × ℚ :=
  (svgcolor color, setop opacity)

def textalign (s : String) : String :=
  if s = "center" ∨ s = "middle" ∨ s = "mid" ∨ s = "c" then "middle"
  else if s = "left" ∨ s = "start" ∨ s = "l" then "start"
  else if s = "right" ∨ s = "end" ∨ s = "e" then "end"
  else "start"

/-! ## Pipeline configuration (wasm.go lines 33-67, 75-78) -/

structure WASMPipeline where
  width : ℤ
  height : ℤ
  sansFont : String
  serifFont : String
  monoFont : String
  deriving Repr, DecidableEq, Inhabited

def NewWASMPipeline : WASMPipeline :=
  { width := 1920
    height := 1080
    sansFont := "Helvetica, Arial, sans-serif"
    serifFont := "Georgia, Times, serif"
    monoFont := "Monaco, Consolas, monospace" }

/-- Function `fontlookup` over the fontmap as `Process` populates it
(keys `sans`, `serif`, `mono`); unknown tokens fall back to `sans`. -/
def fontlookup (p : WASMPipeline) (s : String) : String :=
  if s = "sans" then p.sansFont
  else if s = "serif" then p.serifFont
  else if s = "mono" then p.monoFont
  else p.sansFont

/-! ## The deck data model (external `github.com/ajstarks/deck` structures,
restricted to the fields `wasm.go` reads; XML-unmarshal zero values are the
structure defaults). -/

structure Canvas where
  Width : ℤ := 0
  Height : ℤ := 0
  deriving Repr, DecidableEq, Inhabited

structure ListItem where
  ListText : String := ""
  Font : String := ""
  Color : String := ""
  Opacity : ℚ := 0
  deriving Repr, DecidableEq, Inhabited

structure Image where
  Xp : ℚ := 0
  Yp : ℚ := 0
  Width : ℤ := 0
  Height : ℤ := 0
  Scale : ℚ := 0
  Autoscale : String := ""
  Name : String := ""
  Caption : String := ""
  Font : String := ""
  Color : String := ""
  Align : String := ""
  Sp : ℚ := 0
  deriving Repr, DecidableEq, Inhabited

structure Rect where
  Xp : ℚ := 0
  Yp : ℚ := 0
  Wp : ℚ := 0
  Hp : ℚ := 0
  Hr : ℚ := 0
  Color : String := ""
  Opacity : ℚ := 0
  deriving Repr, DecidableEq, Inhabited

structure Ellipse where
  Xp : ℚ := 0
  Yp : ℚ := 0
  Wp : ℚ := 0
  Hp : ℚ := 0
  Hr : ℚ := 0
  Color : String := ""
  Opacity : ℚ := 0
  deriving Repr, DecidableEq, Inhabited

structure Curve where
  Xp1 : ℚ := 0
  Yp1 : ℚ := 0
  Xp2 : ℚ := 0
  Yp2 : ℚ := 0
  Xp3 : ℚ := 0
  Yp3 : ℚ := 0
  Sp : ℚ := 0
  Color : String := ""
  Opacity : ℚ := 0
  deriving Repr, DecidableEq, Inhabited

structure Arc where
  Xp : ℚ := 0
  Yp : ℚ := 0
  Wp : ℚ := 0
  Hp : ℚ := 0
  Sp : ℚ := 0
  A1 : ℚ := 0
  A2 : ℚ := 0
  Color : String := ""
  Opacity : ℚ := 0
  deriving Repr, DecidableEq, Inhabited

structure Line where
  Xp1 : ℚ := 0
  Yp1 : ℚ := 0
  Xp2 : ℚ := 0
  Yp2 : ℚ := 0
  Sp : ℚ := 0
  Color : String := ""
  Opacity : ℚ := 0
  deriving Repr, DecidableEq, Inhabited

structure Polygon where
  XC : String := ""
  YC : String := ""
  Color : String := ""
  Opacity : ℚ := 0
  deriving Repr, DecidableEq, Inhabited

/-- The deck `Text` element; the Go field `Type` is named `Ttype` here
(`Type` is a Lean keyword). -/
structure Text where
  Xp : ℚ := 0
  Yp : ℚ := 0
  Sp : ℚ := 0
  Wp : ℚ := 0
  Tdata : String := ""
  File : String := ""
  Font : String := ""
  Color : String := ""
  Align : String := ""
  Ttype : String := ""
  Lp : ℚ := 0
  Rotation : ℚ := 0
  Opacity : ℚ := 0
  deriving Repr, DecidableEq, Inhabited

/-- The deck `List` element (named `ListEntry` here because `List` is Lean's
list type); its items are `Li`, and the Go field `Type` is named `Ttype`. -/
structure ListEntry where
  Xp : ℚ := 0
  Yp : ℚ := 0
  Sp : ℚ := 0
  Wp : ℚ := 0
  Lp : ℚ := 0
  Rotation : ℚ := 0
  Li : List ListItem := []
  Font : String := ""
  Ttype : String := ""
  Align : String := ""
  Color : String := ""
  Opacity : ℚ := 0
  deriving Repr, DecidableEq, Inhabited

structure Slide where
  Bg : String := ""
  Fg : String := ""
  Gradcolor1 : String := ""
  Gradcolor2 : String := ""
  Image : List Image := []
  Rect : List Rect := []
  Ellipse : List Ellipse := []
  Curve : List Curve := []
  Arc : List Arc := []
  Line : List Line := []
  Polygon : List Polygon := []
  Text : List Text := []
  List : List ListEntry := []
  deriving Repr, DecidableEq, Inhabited

structure Deck where
  Title : String := ""
  Canvas : Canvas := {}
  Slide : List Slide := []
  deriving Repr, DecidableEq, Inhabited

/-! ## The abstract SVG canvas

Each method call on the `svg.SVG` document is recorded as one `SVGCall`,
in emission order.  Text style strings are modelled structurally:
`TextStyle.full` is `showtext`'s format string arguments, `TextStyle.plain`
is `textwrap`'s bare `doc.Text(xp, yp, line)`, `TextStyle.listItem` is the
pieces of `dolist`'s `lifmt` string (empty color/font meaning the piece is
absent). -/

inductive TextStyle where
  | full (color : String) (fs : ℚ) (font : String) (anchor : String)
  | plain
  | listItem (opacity : ℚ) (color : String) (font : String) (centered : Bool)
  deriving Repr, DecidableEq

/-- The Arc call records the center, radii, angles and large-arc flag; the
polar-projected endpoints `polar(x, y, w, -a1)` / `polar(x, y, h, -a2)` are
determined by these parameters (cosine/sine are not representable in `ℚ`). -/
inductive SVGCall where
  | startview (w h vx vy vw vh : ℚ)
  | rect (x y w h : ℚ) (fill : String × ℚ)
  | rectRaw (x y w h : ℚ) (style : String)
  | ellipse (x y rx ry : ℚ) (fill : String × ℚ)
  | line (x1 y1 x2 y2 : ℚ) (stroke : ℚ × String × ℚ)
  | arc (x y rx ry a1 a2 : ℚ) (large : Bool) (stroke : ℚ × String × ℚ)
  | qbez (x1 y1 x2 y2 x3 y3 : ℚ) (stroke : ℚ × String × ℚ)
  | polygon (px py : List ℚ) (fill : String × ℚ)
  | image (x y : ℚ) (w h : ℤ) (name : String)
  | text (x y : ℚ) (s : String) (style : TextStyle)
  | circle (x y r : ℚ) (fill : String)
  | gstyle (opacity : ℚ) (color : String) (font : String) (fs : ℚ)
  | rotateTranslate (x y deg : ℚ)
  | gend
  | defStart
  | linearGradient (id : String) (c1 c2 : String)
  | defEnd
  | svgEnd
  deriving Repr, DecidableEq

def isRotateTranslate : SVGCall → Bool
  | .rotateTranslate _ _ _ => true
  | _ => false

/-! ## Primitive drawers (wasm.go lines 245-303) -/

def doline (xp1 yp1 xp2 yp2 sw : ℚ) (color : String) (opacity : ℚ) : SVGCall :=
  .line xp1 yp1 xp2 yp2 (strokeop sw color opacity)

def doarc (x y w h a1 a2 sw : ℚ) (color : String) (opacity : ℚ) : SVGCall :=
  .arc x y w h a1 a2 (a2 - a1 ≥ 180) (strokeop sw color opacity)

def docurve (xp1 yp1 xp2 yp2 xp3 yp3 sw : ℚ) (color : String) (opacity : ℚ) : SVGCall :=
  .qbez xp1 yp1 xp2 yp2 xp3 yp3 (strokeop sw color opacity)

def dorect (x y w h : ℚ) (color : String) (opacity : ℚ) : SVGCall :=
  .rect x y w h (fillop color opacity)

def doellipse (x y w h : ℚ) (color : String) (opacity : ℚ) : SVGCall :=
  .ellipse x y w h (fillop color opacity)

def bullet (x y size : ℚ) (color : String) : SVGCall :=
  let rs := size / 2
  .circle (x - size) (y - (rs * 2) / 3) (rs / 2) (svgcolor color)

def background (w h : ℚ) (color : String) : SVGCall :=
  dorect 0 0 w h (svgcolor color) 0

/-- Function `dopoly`: split both coordinate strings on single spaces; bail out
(emitting nothing) on length mismatch or fewer than 3 points; a coordinate
token that fails `ParseFloat` contributes 0 for that axis. -/
def dopoly (xc yc : String) (cw ch : ℚ) (color : String) (opacity : ℚ) : List SVGCall :=
  let xs := goSplit xc ' '
  let ys := goSplit yc ' '
  if xs.length ≠ ys.length then []
  else if xs.length < 3 ∨ ys.length < 3 then []
  else
    let px := xs.map (fun t =>
      match parseFloat? t with
      | none => (0 : ℚ)
      | some x => pct x cw)
    let py := ys.map (fun t =>
      match parseFloat? t with
      | none => (0 : ℚ)
      | some y => pct (100 - y) ch)
    [.polygon px py (fillop color opacity)]

/-! ## Text and list layout (wasm.go lines 317-413) -/

def showtext (p : WASMPipeline) (x y : ℚ) (s : String) (fs : ℚ)
    (font color align : String) : SVGCall :=
  .text x y s (.full (svgcolor color) fs (fontlookup p font) (textalign align))

/-- The word loop of `textwrap`: state is `(xp, yp, line)`; `xp` never
changes (Go sets `xp := x` once).  A literal `\n` token advances `yp`
without flushing; otherwise the word (plus a trailing space) is appended
and the line is flushed when `fs * len(line) * 0.65 > w + x`.  The final
non-empty line is flushed after the loop. -/
def textwrapSteps (x w fs leading : ℚ) : List String → ℚ → ℚ → String → List SVGCall
  | [], xp, yp, line =>
    if line.length > 0 then [.text xp yp line .plain] else []
  | s :: rest, xp, yp, line =>
    if s = "\\n" then textwrapSteps x w fs leading rest xp (yp + leading) line
    else
      let line' := line ++ s ++ " "
      if fs * (line'.length : ℚ) * (65 / 100) > w + x then
        .text xp yp line' .plain :: textwrapSteps x w fs leading rest xp (yp + leading) ""
      else
        textwrapSteps x w fs leading rest xp yp line'

/-- Go `strings.FieldsFunc(s, whitespace)`: split on whitespace runes,
dropping empty fields. -/
def fieldsFunc (s : String) : List String :=
  ((splitPred whitespace s.toList).filter (fun t => t ≠ [])).map String.mk

def textwrap (p : WASMPipeline) (x y w fs leading : ℚ) (s font color : String)
    (opacity : ℚ) : List SVGCall :=
  .gstyle (setop opacity) (svgcolor color) (fontlookup p font) fs
    :: textwrapSteps x w fs leading (fieldsFunc s) x y ""
    ++ [.gend]

/-- The multi-line loop of `dotext`'s non-block branch: draw each split
line, advancing `y` by `ls`. -/
def showLines (p : WASMPipeline) (x fs : ℚ) (font color align : String) (ls : ℚ) :
    List String → ℚ → List SVGCall
  | [], _ => []
  | t :: rest, y =>
    showtext p x y t fs font color align :: showLines p x fs font color align ls rest (y + ls)

def dotext (p : WASMPipeline) (cw x y fs wp rotation ls0 : ℚ)
    (tdata font align ttype color : String) (opacity : ℚ) : List SVGCall :=
  let ls := ls0 * fs
  let td := goSplit tdata '\n'
  let rot : List SVGCall := if rotation > 0 then [.rotateTranslate x y rotation] else []
  let fontAndCodeRect : String × List SVGCall :=
    if ttype = "code" then
      let ch := (td.length : ℚ) * ls
      let tw := cw - x - 20
      ("mono", [dorect (x - fs) (y - fs) tw ch "rgb(240,240,240)" opacity])
    else (font, [])
  let body : List SVGCall :=
    if ttype = "block" then
      let tw := if wp = 0 then cw / 2 else cw * (wp / 100)
      textwrap p x y tw fs ls tdata fontAndCodeRect.1 color opacity
    else
      showLines p x fs fontAndCodeRect.1 color align ls td y
  rot ++ fontAndCodeRect.2 ++ body ++ (if rotation > 0 then [.gend] else [])

/-- The item loop of `dolist`: numbered items get a `"N. "` prefixed text
(1-indexed), bullet items get a marker circle first; `lifmt` always starts
with the fill-opacity piece so the styled `Text` branch is always taken. -/
def dolistItems (x fs : ℚ) (ltype align color : String) (ls : ℚ) :
    List ListItem → ℕ → ℚ → List SVGCall
  | [], _, _ => []
  | tl :: rest, i, y =>
    let t := if ltype = "number" then toString (i + 1) ++ ". " ++ tl.ListText else tl.ListText
    let marker : List SVGCall := if ltype = "bullet" then [bullet x y fs color] else []
    let centered := align = "center" ∨ align = "c"
    marker ++ (.text x y t (.listItem (setop tl.Opacity) tl.Color tl.Font centered)
      :: dolistItems x fs ltype align color ls rest (i + 1) (y + ls))

/-- Function `dolist` (wasm.go lines 376-413).  Note: the `rotation` and `lwidth`
parameters appear in the Go signature but are never read by the body. -/
def dolist (p : WASMPipeline) (x y fs rotation lwidth spacing : ℚ)
    (tlist : List ListItem) (font ltype align color : String) (opacity : ℚ) : List SVGCall :=
  let font := if font = "" then "sans" else font
  let x := if ltype = "bullet" then x + fs else x
  let ls := spacing * fs
  .gstyle (setop opacity) (svgcolor color) (fontlookup p font) fs
    :: dolistItems x fs ltype align color ls tlist 0 y
    ++ [.gend]

/-! ## Slide compositor (wasm.go lines 415-615) -/

/-- Modelled from the external `github.com/ajstarks/deck` package:
`Pwidth(wp, cw, defval)` returns `defval` when `wp` is zero, else
`wp` percent of `cw`.  Only used for image caption font size. -/
def Pwidth (wp cw defval : ℚ) : ℚ :=
  if wp = 0 then defval else (wp / 100) * cw

/-- The pre-autoscale image dimensions: the pixel Width/Height, each
multiplied by `Scale` percent when a positive scale is set. -/
def prescaledDims (im : Image) : ℚ × ℚ :=
  if im.Scale > 0 then
    ((im.Width : ℚ) * (im.Scale / 100), (im.Height : ℚ) * (im.Scale / 100))
  else ((im.Width : ℚ), (im.Height : ℚ))

/-- The image dimension computation inside the image layer of `svgslide`
(lines 452-461): optional pre-scale by `Scale` percent, then the
autoscale rule (`Autoscale == "on"` and width still below canvas width:
stretch width to `cw`, height by the same `cw/iw` factor — computed
before `iw` is overwritten). -/
def imageDims (cw : ℚ) (im : Image) : ℚ × ℚ :=
  let scaled := prescaledDims im
  if im.Autoscale = "on" ∧ scaled.1 < cw then
    (cw, (cw / scaled.1) * scaled.2)
  else scaled

def imageCalls (p : WASMPipeline) (fg : String) (cw ch : ℚ) (im : Image) : List SVGCall :=
  let xys := dimen cw ch im.Xp im.Yp 0
  let x := xys.1
  let y := xys.2.1
  let dims := imageDims cw im
  let iw := dims.1
  let ih := dims.2
  let midx := iw / 2
  let midy := ih / 2
  let imgCall := SVGCall.image (x - midx) (y - midy) (goTrunc iw) (goTrunc ih) im.Name
  if im.Caption.length > 0 then
    let capsize := Pwidth im.Sp cw (pct 2 cw)
    let font := if im.Font = "" then "sans" else im.Font
    let color := if im.Color = "" then fg else im.Color
    let align := if im.Align = "" then "center" else im.Align
    [imgCall, showtext p x (y + midy + capsize * 2) im.Caption capsize font color align]
  else [imgCall]

def rectCalls (cw ch : ℚ) (r : Rect) : SVGCall :=
  let xys := dimen cw ch r.Xp r.Yp 0
  let x := xys.1
  let y := xys.2.1
  let w := pct r.Wp cw
  let h := if r.Hr = 0 then pct r.Hp ch else pct r.Hr w
  let color := if r.Color = "" then defaultColor else r.Color
  dorect (x - w / 2) (y - h / 2) w h color r.Opacity

def ellipseCalls (cw ch : ℚ) (e : Ellipse) : SVGCall :=
  let xys := dimen cw ch e.Xp e.Yp 0
  let x := xys.1
  let y := xys.2.1
  let w := pct e.Wp cw
  let h := if e.Hr = 0 then pct e.Hp ch else pct e.Hr w
  let color := if e.Color = "" then defaultColor else e.Color
  doellipse x y (w / 2) (h / 2) color e.Opacity

def curveCalls (cw ch : ℚ) (c : Curve) : SVGCall :=
  let color := if c.Color = "" then defaultColor else c.Color
  let d1 := dimen cw ch c.Xp1 c.Yp1 c.Sp
  let d2 := dimen cw ch c.Xp2 c.Yp2 0
  let d3 := dimen cw ch c.Xp3 c.Yp3 0
  let sw := if d1.2.2 = 0 then 2 else d1.2.2
  docurve d1.1 d1.2.1 d2.1 d2.2.1 d3.1 d3.2.1 sw color c.Opacity

def arcCalls (cw ch : ℚ) (a : Arc) : SVGCall :=
  let color := if a.Color = "" then defaultColor else a.Color
  let d := dimen cw ch a.Xp a.Yp a.Sp
  let w := pct a.Wp cw
  let h := pct a.Hp cw
  let sw := if d.2.2 = 0 then 2 else d.2.2
  doarc d.1 d.2.1 (w / 2) (h / 2) a.A1 a.A2 sw color a.Opacity

def lineCalls (cw ch : ℚ) (l : Line) : SVGCall :=
  let color := if l.Color = "" then defaultColor else l.Color
  let d1 := dimen cw ch l.Xp1 l.Yp1 l.Sp
  let d2 := dimen cw ch l.Xp2 l.Yp2 0
  let sw := if d1.2.2 = 0 then 2 else d1.2.2
  doline d1.1 d1.2.1 d2.1 d2.2.1 sw color l.Opacity

def polyCalls (cw ch : ℚ) (q : Polygon) : List SVGCall :=
  let color := if q.Color = "" then defaultColor else q.Color
  dopoly q.XC q.YC cw ch color q.Opacity

def textCalls (p : WASMPipeline) (fg : String) (cw ch : ℚ) (t : Text) : List SVGCall :=
  let color := if t.Color = "" then fg else t.Color
  let font := if t.Font = "" then "sans" else t.Font
  let tdata := if t.File ≠ "" then t.File else t.Tdata
  let lp := if t.Lp = 0 then linespacing else t.Lp
  let d := dimen cw ch t.Xp t.Yp t.Sp
  dotext p cw d.1 d.2.1 d.2.2 t.Wp t.Rotation lp tdata font t.Align t.Ttype color t.Opacity

/-- The list layer (wasm.go lines 583-596).  Note the argument order of the
call `p.dolist(doc, x, y, fs, l.Wp, l.Rotation, l.Lp, ...)` against the
signature `dolist(doc, x, y, fs, rotation, lwidth, spacing, ...)`: the
effective wrap width lands in the (unused) `rotation` slot and
`l.Rotation` in the (unused) `lwidth` slot. -/
def listCalls (p : WASMPipeline) (fg : String) (cw ch : ℚ) (l : ListEntry) : List SVGCall :=
  let color := if l.Color = "" then fg else l.Color
  let lp := if l.Lp = 0 then listspacing else l.Lp
  let wp := if l.Wp = 0 then listwrap else l.Wp
  let d := dimen cw ch l.Xp l.Yp l.Sp
  dolist p d.1 d.2.1 d.2.2 wp l.Rotation lp l.Li l.Font l.Ttype l.Align color l.Opacity

/-- The nine drawing layers, in the order of the `layers` slice
(wasm.go line 445). -/
inductive Layer where
  | image
  | rect
  | ellipse
  | curve
  | arc
  | line
  | poly
  | text
  | list
  deriving Repr, DecidableEq

def layerIdx : Layer → ℕ
  | .image => 0
  | .rect => 1
  | .ellipse => 2
  | .curve => 3
  | .arc => 4
  | .line => 5
  | .poly => 6
  | .text => 7
  | .list => 8

def layerOrder : List Layer :=
  [.image, .rect, .ellipse, .curve, .arc, .line, .poly, .text, .list]

/-- One `case` of the layer `switch`: all drawing calls of one category,
in the input order of that category's entries.  `fg` is the slide
foreground after the `"black"` default. -/
def layerEntriesCalls (p : WASMPipeline) (s : Slide) (fg : String) (cw ch : ℚ) :
    Layer → List SVGCall
  | .image => s.Image.flatMap (imageCalls p fg cw ch)
  | .rect => s.Rect.map (rectCalls cw ch)
  | .ellipse => s.Ellipse.map (ellipseCalls cw ch)
  | .curve => s.Curve.map (curveCalls cw ch)
  | .arc => s.Arc.map (arcCalls cw ch)
  | .line => s.Line.map (lineCalls cw ch)
  | .poly => s.Polygon.flatMap (polyCalls cw ch)
  | .text => s.Text.flatMap (textCalls p fg cw ch)
  | .list => s.List.flatMap (listCalls p fg cw ch)

/-- The `for _, layer := range layers` loop, with each emitted call tagged
by the category (slide-record layer) that produced it.  An image caption's
text call is tagged `image`: it is drawn by the image layer. -/
def slideShapeCallsTagged (p : WASMPipeline) (s : Slide) (fg : String) (cw ch : ℚ) :
    List (Layer × SVGCall) :=
  layerOrder.flatMap fun L => (layerEntriesCalls p s fg cw ch L).map (fun c => (L, c))

/-- Function `svgslide` (wasm.go lines 415-601): guard the index, open the viewport,
optional background and gradient, default the foreground, draw the nine
layers in order, close the document. -/
def svgslide (p : WASMPipeline) (d : Deck) (n : ℤ) (cw ch : ℚ) : List SVGCall :=
  if n < 0 ∨ n > (d.Slide.length : ℤ) - 1 then []
  else
    let slide := d.Slide.getD n.toNat {}
    let bgCalls : List SVGCall :=
      if slide.Bg.length > 0 then [background cw ch slide.Bg] else []
    let gradCalls : List SVGCall :=
      if slide.Gradcolor1.length > 0 ∧ slide.Gradcolor2.length > 0 then
        [.defStart, .linearGradient "slidegrad" slide.Gradcolor1 slide.Gradcolor2, .defEnd,
         .rectRaw 0 0 cw ch "fill:url(#slidegrad)"]
      else []
    let fg := if slide.Fg = "" then "black" else slide.Fg
    SVGCall.startview cw ch 0 0 cw ch
      :: bgCalls ++ gradCalls
      ++ (slideShapeCallsTagged p slide fg cw ch).map Prod.snd
      ++ [.svgEnd]

/-- Function `RenderSlide` (wasm.go lines 604-615): the only error is an
out-of-range slide index; on error nothing has been emitted (the document
is only created after the check). -/
def RenderSlide (p : WASMPipeline) (d : Deck) (slideIndex : ℤ) :
    Except String (List SVGCall) :=
  if slideIndex < 0 ∨ slideIndex ≥ (d.Slide.length : ℤ) then
    .error ("slide index " ++ toString slideIndex ++ " out of range")
  else
    .ok (svgslide p d slideIndex ((d.Canvas.Width : ℚ)) ((d.Canvas.Height : ℚ)))

/-! # Claim theorems -/

/-- C1: `setop` returns 0 for negative opacity controls, `v / 100` for
positive ones, and exactly 1 for the zero sentinel (zero means
default/opaque, not transparent); in particular `setop 0 = 1`,
`setop (-5) = 0` and `setop 50 = 0.5`. -/
theorem setop_spec (v : ℚ) :
    (v < 0 → setop v = 0) ∧ (v > 0 → setop v = v / 100) ∧ (v = 0 → setop v = 1) ∧
    setop 0 = 1 ∧ setop (-5) = 0 ∧ setop 50 = 1 / 2 := by
  refine ⟨fun h => ?_, fun h => ?_, fun h => ?_, by decide, by decide, by decide⟩
  · simp [setop, h]
  · rw [setop, if_neg (by linarith), if_pos h]
  · simp [setop, h]

/-- Witness for C1 at v = -5, 50 and 0. -/
theorem setop_spec_witness :
    setop (-5) = 0 ∧ setop 50 = 50 / 100 ∧ setop 0 = 1 :=
  ⟨(setop_spec (-5)).1 (by norm_num), (setop_spec 50).2.1 (by norm_num),
    (setop_spec 0).2.2.1 rfl⟩

/-- C5: `dimen` maps percentages to
`((xp/100)·w, ((100-yp)/100)·h, (sp/100)·w)`; the y output is strictly
decreasing in `yp` when `h > 0`, and `dimen w h 0 0 0 = (0, h, 0)`,
`dimen w h 100 100 0 = (w, 0, 0)`. -/
theorem dimen_spec (w h xp yp sp : ℚ) :
    dimen w h xp yp sp = ((xp / 100) * w, ((100 - yp) / 100) * h, (sp / 100) * w) ∧
    (0 < h → ∀ yp1 yp2 : ℚ, yp1 < yp2 →
      (dimen w h xp yp2 sp).2.1 < (dimen w h xp yp1 sp).2.1) ∧
    dimen w h 0 0 0 = (0, h, 0) ∧
    dimen w h 100 100 0 = (w, 0, 0) := by
  refine ⟨rfl, fun hh yp1 yp2 hlt => ?_, ?_, ?_⟩
  · show ((100 - yp2) / 100) * h < ((100 - yp1) / 100) * h
    exact mul_lt_mul_of_pos_right (by linarith) hh
  · norm_num [dimen, pct]
  · norm_num [dimen, pct]

/-- Witness for C5: on a 100x50 canvas the y output at yp = 30 is below
the y output at yp = 20. -/
theorem dimen_spec_witness :
    (dimen 100 50 10 30 0).2.1 < (dimen 100 50 10 20 0).2.1 :=
  (dimen_spec 100 50 10 0 0).2.1 (by norm_num) 20 30 (by norm_num)

/-- C4: `RenderSlide` fails exactly on indices outside `[0, slideCount)`,
with the out-of-range error message; the `.error` result carries no output
(the SVG document is only created after the check), and every in-range
index renders successfully. -/
theorem RenderSlide_spec (p : WASMPipeline) (d : Deck) (i : ℤ) :
    ((∃ e, RenderSlide p d i = .error e) ↔ i < 0 ∨ (d.Slide.length : ℤ) ≤ i) ∧
    (i < 0 ∨ (d.Slide.length : ℤ) ≤ i →
      RenderSlide p d i = .error ("slide index " ++ toString i ++ " out of range")) ∧
    (0 ≤ i → i < (d.Slide.length : ℤ) →
      RenderSlide p d i =
        .ok (svgslide p d i ((d.Canvas.Width : ℚ)) ((d.Canvas.Height : ℚ)))) := by
  by_cases hc : i < 0 ∨ (d.Slide.length : ℤ) ≤ i
  · have herr : RenderSlide p d i =
        .error ("slide index " ++ toString i ++ " out of range") := by
      simp [RenderSlide, hc]
    refine ⟨⟨fun _ => hc, fun _ => ⟨_, herr⟩⟩, fun _ => herr, fun h1 h2 => ?_⟩
    rcases hc with hc | hc <;> omega
  · have h0 : ¬ (i < 0 ∨ i ≥ (d.Slide.length : ℤ)) := hc
    refine ⟨⟨fun ⟨e, he⟩ => ?_, fun h => absurd h hc⟩, fun h => absurd h hc, fun _ _ => ?_⟩
    · rw [RenderSlide, if_neg h0] at he
      exact absurd he (by simp)
    · rw [RenderSlide, if_neg h0]

/-- Witness for C4: a one-slide deck errors at index 2 and succeeds at
index 0. -/
theorem RenderSlide_spec_witness :
    RenderSlide NewWASMPipeline { Slide := [{}] } 2 =
      .error ("slide index " ++ toString (2 : ℤ) ++ " out of range") ∧
    RenderSlide NewWASMPipeline { Slide := [{}] } 0 =
      .ok (svgslide NewWASMPipeline { Slide := [{}] } 0
        (((Deck.mk "" {} [{}]).Canvas.Width : ℚ)) (((Deck.mk "" {} [{}]).Canvas.Height : ℚ))) :=
  ⟨(RenderSlide_spec NewWASMPipeline { Slide := [{}] } 2).2.1 (Or.inr (by simp)),
    (RenderSlide_spec NewWASMPipeline { Slide := [{}] } 0).2.2 (by norm_num) (by simp)⟩

/-- C3 counterexample: a list entry with rotation 45 (> 0) emits no
rotate-translate group anywhere in its calls — `dolist` never reads its
rotation argument (and the `svgslide` call site even passes the wrap
width in the rotation slot) — refuting the claim that every list with
positive rotation is drawn inside such a group. -/
theorem dolist_rotation_counterexample :
    (ListEntry.Rotation { Rotation := 45, Li := [{ ListText := "hello" }] } > 0) ∧
    (listCalls NewWASMPipeline "black" 100 100
        { Rotation := 45, Li := [{ ListText := "hello" }] }).countP isRotateTranslate = 0 ∧
    listCalls NewWASMPipeline "black" 100 100
        { Rotation := 45, Li := [{ ListText := "hello" }] } ≠ [] := by
  refine ⟨by norm_num, by decide, by decide⟩

/-- C3 (amended): a text run with rotation > 0 is drawn inside a
rotate-translate group about its anchor — opened before all its drawing
calls, closed after — and rotation changes no layout coordinate (the
body equals the rotation-0 emission); lists, however, never get a
rotation group: `dolist` ignores its rotation argument entirely. -/
theorem rotation_spec :
    (∀ p cw x y fs wp r ls tdata font align ttype color opacity, r > 0 →
      dotext p cw x y fs wp r ls tdata font align ttype color opacity =
        SVGCall.rotateTranslate x y r ::
          (dotext p cw x y fs wp 0 ls tdata font align ttype color opacity
            ++ [SVGCall.gend])) ∧
    (∀ p x y fs r lw sp tlist font ltype align color opacity,
      dolist p x y fs r lw sp tlist font ltype align color opacity =
        dolist p x y fs 0 lw sp tlist font ltype align color opacity) := by
  constructor
  · intro p cw x y fs wp r ls tdata font align ttype color opacity hr
    simp [dotext, hr, gt_iff_lt, lt_self_iff_false]
  · intro p x y fs r lw sp tlist font ltype align color opacity
    rfl

/-- Witness for the amended C3: a concrete rotated text run. -/
theorem rotation_spec_witness :
    dotext NewWASMPipeline 100 10 20 5 0 45 2 "hi" "sans" "" "" "black" 0 =
      SVGCall.rotateTranslate 10 20 45 ::
        (dotext NewWASMPipeline 100 10 20 5 0 0 2 "hi" "sans" "" "" "black" 0
          ++ [SVGCall.gend]) :=
  rotation_spec.1 NewWASMPipeline 100 10 20 5 0 45 2 "hi" "sans" "" "" "black" 0
    (by norm_num)

/-- C6: with `autoscale == "on"` and the (possibly pre-scaled) width still
below the canvas width, the image width becomes exactly the canvas width
and the height is multiplied by the same `cw / width` ratio; a width
already at least the canvas width is left untouched (autoscale never
downscales).  The image layer's first emitted call carries exactly these
dimensions, truncated to int as Go's conversion does. -/
theorem image_autoscale_spec (p : WASMPipeline) (fg : String) (cw ch : ℚ) (im : Image)
    (hauto : im.Autoscale = "on") :
    ((prescaledDims im).1 < cw →
      imageDims cw im = (cw, (cw / (prescaledDims im).1) * (prescaledDims im).2)) ∧
    (¬ (prescaledDims im).1 < cw → imageDims cw im = prescaledDims im) ∧
    (imageCalls p fg cw ch im).head? = some (SVGCall.image
      (pct im.Xp cw - (imageDims cw im).1 / 2)
      (pct (100 - im.Yp) ch - (imageDims cw im).2 / 2)
      (goTrunc (imageDims cw im).1) (goTrunc (imageDims cw im).2) im.Name) := by
  refine ⟨fun hlt => ?_, fun hge => ?_, ?_⟩
  · simp [imageDims, hauto, hlt]
  · simp [imageDims, hauto, hge]
  · by_cases hcap : im.Caption.length > 0 <;>
      simp [imageCalls, hcap, dimen]

/-- Witness for C6: a 50x30 image with autoscale on a width-100 canvas is
stretched to 100x60. -/
theorem image_autoscale_spec_witness :
    imageDims 100 { Width := 50, Height := 30, Autoscale := "on" } = (100, 60) := by
  have h := (image_autoscale_spec NewWASMPipeline "black" 100 100
    { Width := 50, Height := 30, Autoscale := "on" } rfl).1
  rw [h (by decide)]
  decide

/-- C7: a polygon entry whose space-separated coordinate token lists have
unequal lengths, or fewer than 3 points, emits no drawing call at all, and
the whole slide renders exactly as if the entry were absent (there is no
error channel: `dopoly` just returns). -/
theorem dopoly_malformed_spec (xc yc : String)
    (hbad : (goSplit xc ' ').length ≠ (goSplit yc ' ').length ∨
      (goSplit xc ' ').length < 3 ∨ (goSplit yc ' ').length < 3) :
    (∀ cw ch color op, dopoly xc yc cw ch color op = []) ∧
    (∀ (p : WASMPipeline) (slide : Slide) (fg : String) (cw ch : ℚ)
      (pre post : List Polygon) (q : Polygon), q.XC = xc → q.YC = yc →
      slideShapeCallsTagged p { slide with Polygon := pre ++ q :: post } fg cw ch =
        slideShapeCallsTagged p { slide with Polygon := pre ++ post } fg cw ch) := by
  have h1 : ∀ cw ch color op, dopoly xc yc cw ch color op = [] := by
    intro cw ch color op
    simp only [dopoly]
    split_ifs with hlen hshort
    · rfl
    · rfl
    · rcases hbad with hb | hb | hb
      · exact absurd hb hlen
      · exact absurd (Or.inl hb) hshort
      · exact absurd (Or.inr hb) hshort
  refine ⟨h1, fun p slide fg cw ch pre post q hqx hqy => ?_⟩
  have hq : polyCalls cw ch q = [] := by
    simp [polyCalls, hqx, hqy, h1]
  simp [slideShapeCallsTagged, layerOrder, layerEntriesCalls, hq]

/-- Witness for C7: token lists of lengths 2 and 3. -/
theorem dopoly_malformed_spec_witness :
    dopoly "10 20" "10 20 30" 100 100 "red" 0 = [] ∧
    slideShapeCallsTagged NewWASMPipeline
        { Polygon := [] ++ ({ XC := "10 20", YC := "10 20 30" } : Polygon) :: [] }
        "black" 100 100 =
      slideShapeCallsTagged NewWASMPipeline { Polygon := [] ++ [] } "black" 100 100 :=
  ⟨(dopoly_malformed_spec "10 20" "10 20 30" (by decide)).1 100 100 "red" 0,
    (dopoly_malformed_spec "10 20" "10 20 30" (by decide)).2 NewWASMPipeline {}
      "black" 100 100 [] [] _ rfl rfl⟩

/-- C9: in block mode the wrap width is half the canvas width when the
wrap percentage is 0, else that percentage of the canvas width; in the
word loop a literal `\n` token forces a line break (advancing y by the
leading, emitting nothing); any other word is appended (with a trailing
space) to the line buffer, which is flushed exactly when
`fontSize * characterCount * 0.65` exceeds `wrapWidth + startX`. -/
theorem textwrap_spec :
    (∀ p cw x y fs wp r ls tdata font align color opacity,
      dotext p cw x y fs wp r ls tdata font align "block" color opacity =
        (if r > 0 then [SVGCall.rotateTranslate x y r] else []) ++
          textwrap p x y (if wp = 0 then cw / 2 else cw * (wp / 100)) fs (ls * fs)
            tdata font color opacity ++
          (if r > 0 then [SVGCall.gend] else [])) ∧
    (∀ x w fs leading rest xp yp line,
      textwrapSteps x w fs leading ("\\n" :: rest) xp yp line =
        textwrapSteps x w fs leading rest xp (yp + leading) line) ∧
    (∀ x w fs leading s rest xp yp line, s ≠ "\\n" →
      textwrapSteps x w fs leading (s :: rest) xp yp line =
        if fs * (((line ++ s ++ " ").length : ℚ)) * (65 / 100) > w + x then
          SVGCall.text xp yp (line ++ s ++ " ") .plain ::
            textwrapSteps x w fs leading rest xp (yp + leading) ""
        else textwrapSteps x w fs leading rest xp yp (line ++ s ++ " ")) := by
  refine ⟨fun p cw x y fs wp r ls tdata font align color opacity => ?_,
    fun x w fs leading rest xp yp line => ?_,
    fun x w fs leading s rest xp yp line hs => ?_⟩
  · by_cases hr : r > 0 <;> simp [dotext, hr]
  · simp [textwrapSteps]
  · simp [textwrapSteps, hs]

/-- Witness for C9's flush rule at a concrete word. -/
theorem textwrap_spec_witness :
    textwrapSteps 0 10 10 14 ["hi"] 0 100 "" =
      if (10 : ℚ) * ((("" ++ "hi" ++ " ").length : ℚ)) * (65 / 100) > 10 + 0 then
        SVGCall.text 0 100 ("" ++ "hi" ++ " ") .plain ::
          textwrapSteps 0 10 10 14 [] 0 (100 + 14) ""
      else textwrapSteps 0 10 10 14 [] 0 100 ("" ++ "hi" ++ " ") :=
  textwrap_spec.2.2 0 10 10 14 "hi" [] 0 100 "" (by decide)

/-- C10: a polygon with equal-length token lists of at least 3 points
emits exactly one polygon call even when some tokens fail `ParseFloat`:
a failed x token contributes 0, and a failed y token contributes the
absolute coordinate 0 (the canvas top) — not the vertical flip
`pct (100 - 0) ch = ch` that percentage 0 would give.  No error is
raised (there is no error channel). -/
theorem dopoly_parse_fallback_spec (xc yc : String) (cw ch : ℚ) (color : String) (op : ℚ)
    (hlen : (goSplit xc ' ').length = (goSplit yc ' ').length)
    (h3 : 3 ≤ (goSplit xc ' ').length) :
    ∃ px py : List ℚ,
      dopoly xc yc cw ch color op = [SVGCall.polygon px py (fillop color op)] ∧
      px = (goSplit xc ' ').map
        (fun t => match parseFloat? t with | none => 0 | some x => pct x cw) ∧
      py = (goSplit yc ' ').map
        (fun t => match parseFloat? t with | none => 0 | some y => pct (100 - y) ch) ∧
      (∀ i (hi : i < (goSplit xc ' ').length) (hpx : i < px.length),
        parseFloat? ((goSplit xc ' ').get ⟨i, hi⟩) = none → px.get ⟨i, hpx⟩ = 0) ∧
      (∀ i (hi : i < (goSplit yc ' ').length) (hpy : i < py.length),
        parseFloat? ((goSplit yc ' ').get ⟨i, hi⟩) = none →
          py.get ⟨i, hpy⟩ = 0 ∧ (ch ≠ 0 → py.get ⟨i, hpy⟩ ≠ pct (100 - 0) ch)) := by
  refine ⟨_, _, ?_, rfl, rfl, fun i hi hpx hfail => ?_, fun i hi hpy hfail => ?_⟩
  · simp only [dopoly]
    rw [if_neg (by omega), if_neg (by omega)]
  · simp only [List.get_eq_getElem] at hfail ⊢
    simp [List.getElem_map, hfail]
  · simp only [List.get_eq_getElem] at hfail ⊢
    refine ⟨by simp [List.getElem_map, hfail], fun hch => ?_⟩
    simp only [List.getElem_map, hfail]
    norm_num [pct]
    exact fun hcontra => hch hcontra.symm

/-- Witness for C10: unparseable middle tokens on both axes contribute 0. -/
theorem dopoly_parse_fallback_spec_witness :
    dopoly "10 abc 30" "0 oops 40" 100 100 "red" 0 =
      [SVGCall.polygon [10, 0, 30] [100, 0, 60] ("red", 1)] := by
  obtain ⟨px, py, heq, hpx, hpy, -, -⟩ :=
    dopoly_parse_fallback_spec "10 abc 30" "0 oops 40" 100 100 "red" 0
      (by decide) (by decide)
  rw [heq, hpx, hpy]
  decide

/-- A single tagged layer block is internally ordered (all tags equal). -/
theorem pairwise_const_tag (L : Layer) (l : List SVGCall) :
    (l.map fun c => (L, c)).Pairwise (fun a b => layerIdx a.1 ≤ layerIdx b.1) := by
  rw [List.pairwise_map]
  induction l with
  | nil => exact .nil
  | cons a t ih => exact .cons (fun b _ => le_refl _) ih

/-- Concatenating tagged layer blocks along a tag-sorted order yields a
tag-sorted call list. -/
theorem pairwise_tag_flatMap (order : List Layer) (f : Layer → List SVGCall)
    (h : order.Pairwise (fun a b => layerIdx a ≤ layerIdx b)) :
    (order.flatMap fun L => (f L).map fun c => (L, c)).Pairwise
      (fun a b => layerIdx a.1 ≤ layerIdx b.1) := by
  induction order with
  | nil => exact .nil
  | cons L rest ih =>
    rw [List.flatMap_cons, List.pairwise_append]
    obtain ⟨hhead, htail⟩ := List.pairwise_cons.mp h
    refine ⟨pairwise_const_tag L (f L), ih htail, fun a ha b hb => ?_⟩
    obtain ⟨ca, -, rfl⟩ := List.mem_map.mp ha
    obtain ⟨M, hM, hbM⟩ := List.mem_flatMap.mp hb
    obtain ⟨cb, -, rfl⟩ := List.mem_map.mp hbM
    exact hhead M hM

/-- Filtering one constant-tag block by a tag keeps all of it or none. -/
theorem filter_tag_block (L M : Layer) (cs : List SVGCall) :
    ((cs.map fun c => (M, c)).filter fun c => decide (c.1 = L)) =
      if M = L then cs.map (fun c => (M, c)) else [] := by
  induction cs with
  | nil => simp
  | cons c t ih => by_cases h : M = L <;> simp [h, ih]

/-- C2: in the emitted call sequence of a slide, a drawing call of an
earlier category never follows one of a later category (category indices
are monotone along the tagged shape-call list); the calls of each category
are exactly that category's entries rendered in their original input
order; and `svgslide` emits exactly viewport-open, background/gradient
prelude, the tagged shape calls in that order, viewport-close.  A call's
category is the slide-record category of the entry that produced it (an
image caption's text call belongs to `image`). -/
theorem svgslide_layer_order :
    (∀ (p : WASMPipeline) (slide : Slide) (fg : String) (cw ch : ℚ),
      (slideShapeCallsTagged p slide fg cw ch).Pairwise
        (fun a b => layerIdx a.1 ≤ layerIdx b.1)) ∧
    (∀ (p : WASMPipeline) (slide : Slide) (fg : String) (cw ch : ℚ) (L : Layer),
      (((slideShapeCallsTagged p slide fg cw ch).filter
          fun c => decide (c.1 = L)).map Prod.snd) =
        layerEntriesCalls p slide fg cw ch L) ∧
    (∀ (p : WASMPipeline) (d : Deck) (n : ℤ) (cw ch : ℚ),
      0 ≤ n → n < (d.Slide.length : ℤ) →
      ∃ prelude : List SVGCall,
        svgslide p d n cw ch =
          SVGCall.startview cw ch 0 0 cw ch :: prelude ++
            (slideShapeCallsTagged p (d.Slide.getD n.toNat {})
              (if (d.Slide.getD n.toNat {}).Fg = "" then "black"
               else (d.Slide.getD n.toNat {}).Fg) cw ch).map Prod.snd ++
            [SVGCall.svgEnd]) := by
  refine ⟨fun p slide fg cw ch => ?_, fun p slide fg cw ch L => ?_,
    fun p d n cw ch h0 hn => ?_⟩
  · exact pairwise_tag_flatMap layerOrder _ (by decide)
  · rw [slideShapeCallsTagged, layerOrder]
    cases L <;>
      (simp only [List.flatMap_cons, List.flatMap_nil, List.append_nil,
        List.filter_append, filter_tag_block]
       simp [layerEntriesCalls, Function.comp])
  · refine ⟨(if (d.Slide.getD n.toNat {}).Bg.length > 0 then
        [background cw ch (d.Slide.getD n.toNat {}).Bg] else []) ++
      (if (d.Slide.getD n.toNat {}).Gradcolor1.length > 0 ∧
          (d.Slide.getD n.toNat {}).Gradcolor2.length > 0 then
        [.defStart, .linearGradient "slidegrad" (d.Slide.getD n.toNat {}).Gradcolor1
            (d.Slide.getD n.toNat {}).Gradcolor2, .defEnd,
          .rectRaw 0 0 cw ch "fill:url(#slidegrad)"]
      else []), ?_⟩
    rw [svgslide, if_neg (by omega)]
    simp

/-- Witness deck for C2: one slide with entries in several categories. -/
def c2Deck : Deck :=
  { Slide := [{ Rect := [{ Xp := 50, Yp := 50, Wp := 20, Hp := 10 }],
                Image := [{ Width := 10, Height := 10, Name := "i.png" }],
                Line := [{ Xp1 := 0, Yp1 := 0, Xp2 := 100, Yp2 := 100 }] }] }

/-- Witness for C2 at a concrete one-slide deck. -/
theorem svgslide_layer_order_witness :
    ∃ prelude : List SVGCall,
      svgslide NewWASMPipeline c2Deck 0 100 100 =
        SVGCall.startview 100 100 0 0 100 100 :: prelude ++
          (slideShapeCallsTagged NewWASMPipeline (c2Deck.Slide.getD (Int.toNat 0) {})
            (if (c2Deck.Slide.getD (Int.toNat 0) {}).Fg = "" then "black"
             else (c2Deck.Slide.getD (Int.toNat 0) {}).Fg) 100 100).map Prod.snd ++
          [SVGCall.svgEnd] :=
  svgslide_layer_order.2.2 NewWASMPipeline c2Deck 0 100 100 (by norm_num) (by simp [c2Deck])

/-- Go `math.Mod` of nonnegative by positive stays in `[0, b)`. -/
theorem goMod_bounds (a b : ℚ) (ha : 0 ≤ a) (hb : 0 < b) :
    0 ≤ goMod a b ∧ goMod a b < b := by
  have hq : (0 : ℚ) ≤ a / b := div_nonneg ha hb.le
  have hkey : b * (a / b) = a := by field_simp
  have h1 : (⌊a / b⌋ : ℚ) ≤ a / b := Int.floor_le _
  have h2 : a / b < ⌊a / b⌋ + 1 := Int.lt_floor_add_one _
  rw [goMod, goTrunc, if_pos hq]
  constructor
  · nlinarith [mul_le_mul_of_nonneg_left h1 hb.le]
  · nlinarith [mul_lt_mul_of_pos_left h2 hb]

/-- Go `math.Mod` is the identity below the modulus. -/
theorem goMod_eq_self (a b : ℚ) (ha : 0 ≤ a) (hab : a < b) : goMod a b = a := by
  have hb : 0 < b := lt_of_le_of_lt ha hab
  have hf : ⌊a / b⌋ = 0 := by
    rw [Int.floor_eq_zero_iff, Set.mem_Ico]
    exact ⟨div_nonneg ha hb.le, (div_lt_one hb).mpr hab⟩
  rw [goMod, goTrunc, if_pos (div_nonneg ha hb.le), hf]
  push_cast
  ring

/-- For a sector value in `[0, 6)` the hue switch always selects a branch,
and every selected channel is one of `0`, `x`, `c`. -/
theorem hsvSector_some (sect c x : ℚ) (h0 : 0 ≤ sect) (h6 : sect < 6) :
    ∃ r g b : ℚ, hsvSector sect c x = some (r, g, b) ∧
      (r = 0 ∨ r = x ∨ r = c) ∧ (g = 0 ∨ g = x ∨ g = c) ∧ (b = 0 ∨ b = x ∨ b = c) := by
  rw [hsvSector]
  split_ifs with h1 h2 h3 h4 h5 hl
  · exact ⟨c, x, 0, rfl, .inr (.inr rfl), .inr (.inl rfl), .inl rfl⟩
  · exact ⟨x, c, 0, rfl, .inr (.inl rfl), .inr (.inr rfl), .inl rfl⟩
  · exact ⟨0, c, x, rfl, .inl rfl, .inr (.inr rfl), .inr (.inl rfl)⟩
  · exact ⟨0, x, c, rfl, .inl rfl, .inr (.inl rfl), .inr (.inr rfl)⟩
  · exact ⟨x, 0, c, rfl, .inr (.inl rfl), .inl rfl, .inr (.inr rfl)⟩
  · exact ⟨c, 0, x, rfl, .inr (.inr rfl), .inl rfl, .inr (.inl rfl)⟩
  · exfalso
    have c1 : 1 < sect := by by_contra hc; push_neg at hc; exact h1 ⟨h0, hc⟩
    have c2 : 2 < sect := by by_contra hc; push_neg at hc; exact h2 ⟨c1, hc⟩
    have c3 : 3 < sect := by by_contra hc; push_neg at hc; exact h3 ⟨c2, hc⟩
    have c4 : 4 < sect := by by_contra hc; push_neg at hc; exact h4 ⟨c3, hc⟩
    have c5 : 5 < sect := by by_contra hc; push_neg at hc; exact h5 ⟨c4, hc⟩
    exact hl ⟨c5, h6.le⟩

/-- Unfolding equation for `hsv2rgb` off the fail-safe branch. -/
theorem hsv2rgb_eq (h s v : ℚ) (hnot : ¬ (s / 100 > 1 ∨ v / 100 > 1)) :
    hsv2rgb h s v =
      (match hsvSector (goMod h 360 / 60) (v / 100 * (s / 100))
          (v / 100 * (s / 100) * (1 - |goMod (goMod h 360 / 60) 2 - 1|)) with
        | none => (0, 0, 0)
        | some (r, g, b) =>
          (goTrunc ((r + (v / 100 - v / 100 * (s / 100))) * 255),
           goTrunc ((g + (v / 100 - v / 100 * (s / 100))) * 255),
           goTrunc ((b + (v / 100 - v / 100 * (s / 100))) * 255))) := by
  simp only [hsv2rgb]
  rw [if_neg hnot]

/-- C8: `hsv2rgb` normalizes `s, v` by 100 and fails safe to black when
either normalized value exceeds 1; otherwise, for `h ∈ [0, 360)` and
`s, v ∈ [0, 100]`, the six-sector hue decomposition produces channels in
`[0, 1]`, each multiplied by 255 and truncated (`goTrunc`, not rounded);
in particular the pure hues give `(255,0,0)`, `(0,255,0)`, `(0,0,255)`
(red-, green-, blue-dominant respectively). -/
theorem hsv2rgb_spec :
    (∀ h s v : ℚ, s / 100 > 1 ∨ v / 100 > 1 → hsv2rgb h s v = (0, 0, 0)) ∧
    (∀ h s v : ℚ, 0 ≤ h → h < 360 → 0 ≤ s → s ≤ 100 → 0 ≤ v → v ≤ 100 →
      ∃ r g b : ℚ, 0 ≤ r ∧ r ≤ 1 ∧ 0 ≤ g ∧ g ≤ 1 ∧ 0 ≤ b ∧ b ≤ 1 ∧
        hsv2rgb h s v = (goTrunc (r * 255), goTrunc (g * 255), goTrunc (b * 255))) ∧
    hsv2rgb 0 100 100 = (255, 0, 0) ∧
    hsv2rgb 120 100 100 = (0, 255, 0) ∧
    hsv2rgb 240 100 100 = (0, 0, 255) := by
  refine ⟨fun h s v hgt => ?_, fun h s v h0 h360 hs0 hs1 hv0 hv1 => ?_,
    by decide, by decide, by decide⟩
  · simp only [hsv2rgb]
    rw [if_pos hgt]
  · have hnot : ¬ (s / 100 > 1 ∨ v / 100 > 1) := by
      push_neg
      constructor <;> linarith
    have hmodh : goMod h 360 = h := goMod_eq_self h 360 h0 h360
    have hsect0 : 0 ≤ goMod h 360 / 60 := by rw [hmodh]; positivity
    have hsect6 : goMod h 360 / 60 < 6 := by
      rw [hmodh, div_lt_iff (by norm_num : (0:ℚ) < 60)]
      linarith
    obtain ⟨hm0, hm2⟩ := goMod_bounds (goMod h 360 / 60) 2 hsect0 (by norm_num)
    have hv'0 : 0 ≤ v / 100 := by positivity
    have hv'1 : v / 100 ≤ 1 := by linarith
    have hs'0 : 0 ≤ s / 100 := by positivity
    have hs'1 : s / 100 ≤ 1 := by linarith
    have habs0 : 0 ≤ 1 - |goMod (goMod h 360 / 60) 2 - 1| := by
      have habs : |goMod (goMod h 360 / 60) 2 - 1| ≤ 1 :=
        abs_le.mpr ⟨by linarith, by linarith⟩
      linarith
    have habs1 : 1 - |goMod (goMod h 360 / 60) 2 - 1| ≤ 1 := by
      have := abs_nonneg (goMod (goMod h 360 / 60) 2 - 1)
      linarith
    have hc0 : 0 ≤ v / 100 * (s / 100) := mul_nonneg hv'0 hs'0
    have hcv : v / 100 * (s / 100) ≤ v / 100 := mul_le_of_le_one_right hv'0 hs'1
    have hx0 : 0 ≤ v / 100 * (s / 100) * (1 - |goMod (goMod h 360 / 60) 2 - 1|) :=
      mul_nonneg hc0 habs0
    have hxc : v / 100 * (s / 100) * (1 - |goMod (goMod h 360 / 60) 2 - 1|) ≤
        v / 100 * (s / 100) := mul_le_of_le_one_right hc0 habs1
    obtain ⟨r0, g0, b0, hsec, hr, hg, hb⟩ :=
      hsvSector_some (goMod h 360 / 60) (v / 100 * (s / 100))
        (v / 100 * (s / 100) * (1 - |goMod (goMod h 360 / 60) 2 - 1|)) hsect0 hsect6
    have hrB : 0 ≤ r0 ∧ r0 ≤ v / 100 * (s / 100) := by
      rcases hr with rfl | rfl | rfl
      exacts [⟨le_rfl, hc0⟩, ⟨hx0, hxc⟩, ⟨hc0, le_rfl⟩]
    have hgB : 0 ≤ g0 ∧ g0 ≤ v / 100 * (s / 100) := by
      rcases hg with rfl | rfl | rfl
      exacts [⟨le_rfl, hc0⟩, ⟨hx0, hxc⟩, ⟨hc0, le_rfl⟩]
    have hbB : 0 ≤ b0 ∧ b0 ≤ v / 100 * (s / 100) := by
      rcases hb with rfl | rfl | rfl
      exacts [⟨le_rfl, hc0⟩, ⟨hx0, hxc⟩, ⟨hc0, le_rfl⟩]
    refine ⟨r0 + (v / 100 - v / 100 * (s / 100)), g0 + (v / 100 - v / 100 * (s / 100)),
      b0 + (v / 100 - v / 100 * (s / 100)),
      by linarith [hrB.1, hcv], by linarith [hrB.2, hv'1],
      by linarith [hgB.1, hcv], by linarith [hgB.2, hv'1],
      by linarith [hbB.1, hcv], by linarith [hbB.2, hv'1], ?_⟩
    rw [hsv2rgb_eq h s v hnot, hsec]

/-- Witness for C8: an out-of-range saturation yields black, and an
arbitrary in-range input has channels in `[0,1]` scaled-truncated. -/
theorem hsv2rgb_spec_witness :
    hsv2rgb 0 200 100 = (0, 0, 0) ∧
    (∃ r g b : ℚ, 0 ≤ r ∧ r ≤ 1 ∧ 0 ≤ g ∧ g ≤ 1 ∧ 0 ≤ b ∧ b ≤ 1 ∧
      hsv2rgb 90 50 50 = (goTrunc (r * 255), goTrunc (g * 255), goTrunc (b * 255))) :=
  ⟨hsv2rgb_spec.1 0 200 100 (Or.inl (by norm_num)),
    hsv2rgb_spec.2.1 90 50 50 (by norm_num) (by norm_num) (by norm_num)
      (by norm_num) (by norm_num) (by norm_num)⟩

end PlatDeck
